import Mathlib

/-!
Verification of the WhatsApp MCP server's session/cache core
(`src/whatsapp-client.ts`, `src/index.ts`).

The TypeScript code is shallowly embedded: each Lean definition below is a
direct translation of one function (or one cohesive block) of the source,
with the source location recorded in its doc comment.  JavaScript `Map`s
are modelled as insertion-ordered association lists, JavaScript's falsy
`x || y` fallbacks on strings/numbers are modelled explicitly, and the
stable `Array.prototype.sort` is modelled by stable insertion sort.
-/

/-- Equality of driver/promise outcomes is decidable; used only to evaluate
the embedded operations on concrete inputs. -/
instance {ε α : Type} [DecidableEq ε] [DecidableEq α] : DecidableEq (Except ε α) :=
  fun x y =>
    match x, y with
    | .ok a, .ok b =>
      if h : a = b then .isTrue (by rw [h]) else .isFalse (by simp [h])
    | .error a, .error b =>
      if h : a = b then .isTrue (by rw [h]) else .isFalse (by simp [h])
    | .ok _, .error _ => .isFalse (by simp)
    | .error _, .ok _ => .isFalse (by simp)

/-- Mirrors the `StoredMessage` interface (whatsapp-client.ts lines 63-71).
`from`/`to` are renamed `fromId`/`toId` because `from` is a Lean keyword. -/
structure StoredMessage where
  id : String
  fromId : String
  toId : String
  body : String
  timestamp : Nat
  fromMe : Bool
  pushName : Option String := none
deriving DecidableEq, Repr

/-- Mirrors the `StoredContact` interface (whatsapp-client.ts lines 58-61). -/
structure StoredContact where
  name : Option String := none
  notify : Option String := none
deriving DecidableEq, Repr

/-- JavaScript `a || b` on a possibly-undefined string: `undefined` and the
empty string are falsy. -/
def jsOrS (a : Option String) (b : String) : String :=
  match a with
  | none => b
  | some s => if s = "" then b else s

/-- JavaScript `a || b` on a possibly-undefined number: `undefined` and `0`
are falsy. -/
def jsOrN (a : Option Nat) (b : Nat) : Nat :=
  match a with
  | none => b
  | some n => if n = 0 then b else n

/-- JavaScript `x || undefined` on a possibly-undefined string: collapses the
empty string to `undefined`. -/
def optNE (o : Option String) : Option String :=
  match o with
  | none => none
  | some s => if s = "" then none else some s

/-- `startsWithSeq needle hay` holds when `hay` begins with `needle`
(JavaScript `hay.startsWith(needle)` on code-unit lists). -/
def startsWithSeq : List Char → List Char → Bool
  | [], _ => true
  | _ :: _, [] => false
  | a :: as, b :: bs => a == b && startsWithSeq as bs

/-- JavaScript `hay.endsWith(needle)` on code-unit lists. -/
def endsWithSeq (needle hay : List Char) : Bool :=
  startsWithSeq needle.reverse hay.reverse

/-- `containsSeq needle hay`: JavaScript `hay.includes(needle)` (substring
containment) on code-unit lists. -/
def containsSeq (needle : List Char) : List Char → Bool
  | [] => needle.isEmpty
  | c :: rest => startsWithSeq needle (c :: rest) || containsSeq needle rest

/-- `phone.replace(/\D/g, '')` from `formatPhoneNumber`
(whatsapp-client.ts line 438). -/
def digitsOf (s : String) : String :=
  String.mk (s.toList.filter Char.isDigit)

/-- `formatPhoneNumber` (whatsapp-client.ts lines 437-441): strip every
non-digit, then append `@c.us` unless the cleaned string contains `@`. -/
def formatPhoneNumber (phone : String) : String :=
  let cleaned := digitsOf phone
  if containsSeq "@".toList cleaned.toList then cleaned else cleaned ++ "@c.us"

/-- `chatId.split('@')[0]` (used for display-name fallbacks). -/
def splitAtSign (s : String) : String :=
  String.mk (s.toList.takeWhile (fun c => c ≠ '@'))

/-- JavaScript `arr.slice(-k)` for a non-negative `k`: the last `k` elements,
the whole array when `k = 0` (because `slice(-0)` is `slice(0)`). -/
def jsSliceNeg (k : Nat) (l : List StoredMessage) : List StoredMessage :=
  if k = 0 then l else l.drop (l.length - k)

/-- The timestamp-ascending order used by every
`.sort((a, b) => a.timestamp - b.timestamp)` in the source. -/
def tsLE (a b : StoredMessage) : Prop := a.timestamp ≤ b.timestamp

instance : DecidableRel tsLE := fun a b => Nat.decLe a.timestamp b.timestamp

instance : IsTotal StoredMessage tsLE := ⟨fun a b => Nat.le_total a.timestamp b.timestamp⟩

instance : IsTrans StoredMessage tsLE := ⟨fun _ _ _ h1 h2 => Nat.le_trans h1 h2⟩

/-- JavaScript's stable `Array.prototype.sort` with comparator
`(a, b) => a.timestamp - b.timestamp`, modelled by stable insertion sort. -/
def insertionSortTs (l : List StoredMessage) : List StoredMessage :=
  List.insertionSort tsLE l

/-- Executable check that a log is non-decreasing by timestamp. -/
def sortedByTs : List StoredMessage → Bool
  | [] => true
  | [_] => true
  | a :: b :: rest => decide (a.timestamp ≤ b.timestamp) && sortedByTs (b :: rest)

/-- The dedup-insert shared by the live handlers and both fetch loops:
`if (!chatMessages.find(m => m.id === storedMsg.id)) chatMessages.push(storedMsg)`. -/
def insertIfAbsent (log : List StoredMessage) (m : StoredMessage) : List StoredMessage :=
  if log.any (fun x => x.id == m.id) then log else log ++ [m]

/-- Live-event ingestion (whatsapp-client.ts lines 230-237 for `message`,
identically 256-263 for `message_create`): dedup insert, then evict the head
when the log exceeds 1000 entries. -/
def ingestLive (log : List StoredMessage) (m : StoredMessage) : List StoredMessage :=
  if log.any (fun x => x.id == m.id) then log
  else if (log ++ [m]).length > 1000 then (log ++ [m]).drop 1 else log ++ [m]

/-- The cache-merge loop of `fetchMessages` (whatsapp-client.ts lines
546-551): dedup-insert each fetched message, with no cap and no re-sort of
the stored log. -/
def fetchMerge (log : List StoredMessage) (ms : List StoredMessage) : List StoredMessage :=
  ms.foldl insertIfAbsent log

/-- One mutation of a per-conversation log, as performed by the three cache
writers in the source. -/
inductive CacheOp where
  /-- `client.on('message')` / `client.on('message_create')` storage block. -/
  | live (m : StoredMessage)
  /-- the merge loop of `fetchMessages` (lines 546-551). -/
  | fetch (ms : List StoredMessage)
  /-- the merge loop plus the final cache re-sort of `fetchMoreMessages`
  (lines 805-817). -/
  | fetchMore (ms : List StoredMessage)

/-- Apply one cache mutation to a per-conversation log. -/
def applyOp (log : List StoredMessage) : CacheOp → List StoredMessage
  | .live m => ingestLive log m
  | .fetch ms => fetchMerge log ms
  | .fetchMore ms => insertionSortTs (fetchMerge log ms)

/-- Apply a sequence of cache mutations. -/
def applyOps (log : List StoredMessage) (ops : List CacheOp) : List StoredMessage :=
  ops.foldl applyOp log

/-- The ids stored in a log. -/
def logIds (log : List StoredMessage) : List String :=
  log.map StoredMessage.id

/-- The per-conversation invariant claimed by the spec: every id occurs at
most once. -/
def IdsNodup (log : List StoredMessage) : Prop :=
  (logIds log).Nodup

instance (log : List StoredMessage) : Decidable (IdsNodup log) :=
  inferInstanceAs (Decidable (logIds log).Nodup)

/-- The `messages` map (`Map<string, StoredMessage[]>`, whatsapp-client.ts
line 97), modelled as an insertion-ordered association list, which is how a
JavaScript `Map` iterates. -/
abbrev Cache := List (String × List StoredMessage)

/-- The `contacts` map (`Map<string, StoredContact>`, line 96). -/
abbrev Contacts := List (String × StoredContact)

/-- `Map.prototype.get` on the message cache. -/
def cacheGet? : Cache → String → Option (List StoredMessage)
  | [], _ => none
  | (k', v') :: rest, k => if k' = k then some v' else cacheGet? rest k

/-- `this.messages.get(chatId) || []`. -/
def cacheGet (c : Cache) (k : String) : List StoredMessage :=
  (cacheGet? c k).getD []

/-- `Map.prototype.has` on the message cache. -/
def cacheHas : Cache → String → Bool
  | [], _ => false
  | (k', _) :: rest, k => k' = k || cacheHas rest k

/-- `Map.prototype.set` on the message cache: update in place when the key
exists (keeping iteration order), otherwise append. -/
def cacheSet : Cache → String → List StoredMessage → Cache
  | [], k, v => [(k, v)]
  | (k', v') :: rest, k, v =>
    if k' = k then (k, v) :: rest else (k', v') :: cacheSet rest k v

/-- `Map.prototype.get` on the contact directory. -/
def cGet? : Contacts → String → Option StoredContact
  | [], _ => none
  | (k', v') :: rest, k => if k' = k then some v' else cGet? rest k

/-- `Map.prototype.set` on the contact directory. -/
def cSet : Contacts → String → StoredContact → Contacts
  | [], k, v => [(k, v)]
  | (k', v') :: rest, k, v =>
    if k' = k then (k, v) :: rest else (k', v') :: cSet rest k v

/-- `contact?.name || contact?.notify || chatId.split('@')[0]` — the display
name used for a conversation (lines 630, 722, 735). -/
def chatNameOf (contacts : Contacts) (chatId : String) : String :=
  let contact := cGet? contacts chatId
  jsOrS (contact.bind StoredContact.name)
    (jsOrS (contact.bind StoredContact.notify) (splitAtSign chatId))

/-- A raw driver message as delivered by whatsapp-web.js; the fields the
wrapper reads, each possibly missing. -/
structure RawMsg where
  idSer : Option String := none
  idId : Option String := none
  body : Option String := none
  timestamp : Option Nat := none
  fromMe : Bool := false
  notifyName : Option String := none
deriving DecidableEq, Repr

/-- A raw driver contact as read by `syncContacts` (lines 367-380). -/
structure DriverContact where
  idSer : Option String := none
  name : Option String := none
  pushname : Option String := none
deriving DecidableEq, Repr

/-- A raw driver chat as read by the `getChats` fallback (lines 391-403). -/
structure DriverChat where
  idSer : Option String := none
  name : Option String := none
deriving DecidableEq, Repr

/-- The message-conversion block shared by `fetchMessages` (lines 534-542)
and `fetchMoreMessages` (lines 796-804): `now` stands for
`Math.floor(Date.now() / 1000)`. -/
def toStored (chatId : String) (now : Nat) (m : RawMsg) : StoredMessage :=
  { id := jsOrS m.idSer (jsOrS m.idId "")
    fromId := if m.fromMe then "me" else chatId
    toId := if m.fromMe then chatId else "me"
    body := jsOrS m.body "[Media]"
    timestamp := jsOrN m.timestamp now
    fromMe := m.fromMe
    pushName := m.notifyName }

/-- The external automation driver (whatsapp-web.js), reduced to the
responses the embedded operations consume.  `fetch cid limit` stands for
`(await client.getChatById(cid)).fetchMessages({limit})`; an `Except.error`
is a rejected driver promise. -/
structure Driver where
  send : String → String → Except String String
  fetch : String → Nat → Except String (List RawMsg)
  contactsRes : Except String (List DriverContact)
  chatsRes : Except String (List DriverChat)

/-- The mutable fields of `WhatsAppClientWrapper` (lines 91-102 and 279-280)
together with the two persisted artifacts `resetAuth` deletes.
`clientAlive` is `this.client !== null`. -/
structure WState where
  clientAlive : Bool := false
  isReady : Bool := false
  qrCode : Option String := none
  readyPollingStarted : Bool := false
  contacts : Contacts := []
  messages : Cache := []
  authFolderExists : Bool := false
  contactsFileExists : Bool := false
deriving DecidableEq, Repr

/-- `isClientReady()` (lines 433-435). -/
def isClientReady (st : WState) : Bool :=
  st.isReady && st.clientAlive

/-- `fetchMessages` (lines 519-566).  Returns the value of the promise
(`Except.error` = the method throws) and the updated state.  On driver
failure the catch block returns `[]`; on success each fetched message is
dedup-inserted into the cache and the *returned* list (not the stored log)
is sorted by timestamp. -/
def fetchMessages (st : WState) (d : Driver) (chatId : String) (limit : Nat)
    (now : Nat) : Except String (List StoredMessage) × WState :=
  if st.clientAlive = false ∨ st.isReady = false then
    (.error "WhatsApp client not ready", st)
  else
    match d.fetch chatId limit with
    | .error _ => (.ok [], st)
    | .ok raws =>
      let stored := raws.map (toStored chatId now)
      let cache' := stored.foldl
        (fun c m => cacheSet c chatId (insertIfAbsent (cacheGet c chatId) m)) st.messages
      (.ok (insertionSortTs stored), { st with messages := cache' })

/-- The result record of `fetchMoreMessages` (lines 822-826). -/
structure FetchMoreResult where
  fetched : Bool
  messageCount : Nat
  newMessages : Nat
deriving DecidableEq, Repr

/-- `fetchMoreMessages` (lines 762-831).  The `syncHistory` attempts only
nudge the driver's own buffer, so they are absorbed into `d.fetch`; on
driver failure the catch block reports no new messages and the prior count;
on success the merge counts genuinely new entries and the stored log is
re-sorted by timestamp. -/
def fetchMoreMessages (st : WState) (d : Driver) (chatId : String) (count : Nat)
    (now : Nat) : Except String FetchMoreResult × WState :=
  if st.clientAlive = false ∨ st.isReady = false then
    (.error "WhatsApp client not ready", st)
  else
    let beforeCount := (cacheGet st.messages chatId).length
    let newLimit := max (beforeCount + count) 100
    match d.fetch chatId newLimit with
    | .error _ => (.ok ⟨false, beforeCount, 0⟩, st)
    | .ok raws =>
      let stored := raws.map (toStored chatId now)
      let merged := stored.foldl
        (fun (p : Cache × Nat) m =>
          let log := cacheGet p.1 chatId
          if log.any (fun x => x.id == m.id) then (cacheSet p.1 chatId log, p.2)
          else (cacheSet p.1 chatId (log ++ [m]), p.2 + 1))
        (st.messages, 0)
      let sorted := insertionSortTs (cacheGet merged.1 chatId)
      let cache2 := cacheSet merged.1 chatId sorted
      (.ok ⟨decide (0 < merged.2), sorted.length, merged.2⟩, { st with messages := cache2 })

/-- `s.toLowerCase()` as a code-unit list (ASCII case folding). -/
def lowerChars (s : String) : List Char :=
  s.toList.map Char.toLower

/-- `m.body.toLowerCase().includes(query.toLowerCase())` — the match
predicate of `searchMessages` (lines 711, 716, 729). -/
def bodyMatch (query : String) (m : StoredMessage) : Bool :=
  containsSeq (lowerChars query) (lowerChars m.body)

/-- One entry of a `searchMessages` / `getRecentMessages` result
(lines 705, 623). -/
structure SearchEntry where
  chatId : String
  chatName : String
  messages : List StoredMessage
deriving DecidableEq, Repr

/-- The all-chats loop of `searchMessages` (lines 727-739).  `n` is
`results.length` at loop entry: the budget for the next matching
conversation is `Math.floor(limit / Math.max(results.length + 1, 1))`, and
`matches.slice(-k)` keeps the last `k` matches — all of them when `k = 0`. -/
def searchAllGo (query : String) (limit : Nat) (contacts : Contacts) :
    Cache → Nat → List SearchEntry
  | [], _ => []
  | (cId, msgs) :: rest, n =>
    if (msgs.filter (bodyMatch query)).isEmpty then
      searchAllGo query limit contacts rest n
    else
      ⟨cId, chatNameOf contacts cId,
          jsSliceNeg (limit / (n + 1)) (msgs.filter (bodyMatch query))⟩ ::
        searchAllGo query limit contacts rest (n + 1)

/-- `searchMessages` (lines 705-743): ready guard, single-chat branch or
all-chats scan, then `results.slice(0, 20)`. -/
def searchMessages (st : WState) (query : String) (chatId? : Option String)
    (limit : Nat) : Except String (List SearchEntry) :=
  if st.clientAlive = false ∨ st.isReady = false then
    .error "WhatsApp client not ready"
  else
    let results : List SearchEntry :=
      match chatId? with
      | some cid =>
        let matched := (cacheGet st.messages cid).filter (bodyMatch query)
        if matched.isEmpty then []
        else [⟨cid, chatNameOf st.contacts cid, jsSliceNeg limit matched⟩]
      | none => searchAllGo query limit st.contacts st.messages 0
    .ok (results.take 20)

/-- `a.messages[a.messages.length - 1]?.timestamp || 0` — the sort key of
`getRecentMessages` (lines 641-642). -/
def lastTsOr0 (ms : List StoredMessage) : Nat :=
  match ms.getLast? with
  | some m => m.timestamp
  | none => 0

/-- Conversation order of `getRecentMessages`: the comparator
`(a, b) => bTime - aTime` sorts by last-message timestamp descending. -/
def recentLE (a b : SearchEntry) : Prop :=
  lastTsOr0 b.messages ≤ lastTsOr0 a.messages

instance : DecidableRel recentLE :=
  fun a b => Nat.decLe (lastTsOr0 b.messages) (lastTsOr0 a.messages)

instance : IsTotal SearchEntry recentLE :=
  ⟨fun a b => Nat.le_total (lastTsOr0 b.messages) (lastTsOr0 a.messages)⟩

instance : IsTrans SearchEntry recentLE :=
  ⟨fun _ _ _ h1 h2 => Nat.le_trans h2 h1⟩

/-- `getRecentMessages` (lines 623-647): skip empty logs, keep the last 5
messages per conversation, stable-sort by last-message timestamp
descending, truncate to `limit` conversations. -/
def getRecentMessages (cache : Cache) (contacts : Contacts) (limit : Nat) :
    List SearchEntry :=
  (List.insertionSort recentLE
      (cache.filterMap fun p =>
        if p.2.isEmpty then none
        else some ⟨p.1, chatNameOf contacts p.1, jsSliceNeg 5 p.2⟩)).take limit

/-- `contact.name || undefined` / `contact.pushname || undefined` used when
`syncContacts` stores a contact (lines 375-378). -/
def validDriverId (o : Option String) : Bool :=
  match o with
  | none => false
  | some s => s ≠ "" && s ≠ "status@broadcast"

/-- `syncContacts` (lines 353-417): upsert every valid driver contact; if
none were valid, fall back to deriving entries from `getChats()`; driver
failures are caught and leave the directory as it was.  (The
`saveContactsToFile` persistence call is external I/O.) -/
def syncContacts (d : Driver) (contacts : Contacts) : Contacts :=
  match d.contactsRes with
  | .error _ => contacts
  | .ok list =>
    let valids := list.filter fun c => validDriverId c.idSer
    let contacts1 := valids.foldl
      (fun cs c => cSet cs (c.idSer.getD "") ⟨optNE c.name, optNE c.pushname⟩) contacts
    if valids.length = 0 then
      match d.chatsRes with
      | .error _ => contacts1
      | .ok chats =>
        chats.foldl
          (fun cs ch =>
            if validDriverId ch.idSer ∧ cGet? cs (ch.idSer.getD "") = none then
              cSet cs (ch.idSer.getD "") ⟨optNE ch.name, optNE ch.name⟩
            else cs)
          contacts1
    else contacts1

/-- The name-match test of `findContactByName` (lines 497-504):
case-insensitive substring match against `name` and `notify`, with
`undefined` read as the empty string. -/
def nameMatches (c : StoredContact) (qLower : List Char) : Bool :=
  containsSeq qLower (lowerChars (c.name.getD "")) ||
    containsSeq qLower (lowerChars (c.notify.getD ""))

/-- `findContactByName` (lines 489-507): opportunistically bulk-sync when
the directory is empty and the client is ready, then return the first id
whose stored names contain the query. -/
def findContactByName (st : WState) (d : Driver) (query : String) :
    Option String × WState :=
  let contacts1 :=
    if st.contacts.isEmpty && st.clientAlive && st.isReady then
      syncContacts d st.contacts
    else st.contacts
  let q := lowerChars query
  ((contacts1.find? fun p => nameMatches p.2 q).map Prod.fst,
    { st with contacts := contacts1 })

/-- The result record of `getMessagesByContactName` /
`getMessagesByPhoneNumber` (lines 568, 592). -/
structure MsgsResult where
  contactId : String
  contactName : String
  messages : List StoredMessage
  totalStored : Nat
deriving DecidableEq, Repr

/-- The shared tail of both `getMessagesBy…` functions (lines 577-589 and
608-620): look the contact up for a display name, sort the cached log *in
place* (mutating the stored array when it exists), and return the last
`limit` messages. -/
def msgsResultFor (st : WState) (chatId : String) (fallback : String)
    (limit : Nat) : MsgsResult × WState :=
  let contact := cGet? st.contacts chatId
  let contactName :=
    jsOrS (contact.bind StoredContact.name)
      (jsOrS (contact.bind StoredContact.notify) fallback)
  let sorted := insertionSortTs (cacheGet st.messages chatId)
  let cache' :=
    if cacheHas st.messages chatId then cacheSet st.messages chatId sorted
    else st.messages
  (⟨chatId, contactName, jsSliceNeg limit sorted, sorted.length⟩,
    { st with messages := cache' })

/-- `getMessagesByContactName` (lines 568-590): `null` on a name-lookup
miss; otherwise fetch-on-demand and answer from the cache. -/
def getMessagesByContactName (st : WState) (d : Driver) (name : String)
    (limit now : Nat) : Except String (Option MsgsResult) × WState :=
  let found := findContactByName st d name
  match found.1 with
  | none => (.ok none, found.2)
  | some cid =>
    match fetchMessages found.2 d cid limit now with
    | (.error e, st2) => (.error e, st2)
    | (.ok _, st2) =>
      let r := msgsResultFor st2 cid (splitAtSign cid) limit
      (.ok (some r.1), r.2)

/-- `getMessagesByPhoneNumber` (lines 592-621): derive a jid from the
digits, prefer the first cached contact id that starts with those digits
and ends with `@c.us`, fetch-on-demand, and always return a record — there
is no `null` path. -/
def getMessagesByPhoneNumber (st : WState) (d : Driver) (phone : String)
    (limit now : Nat) : Except String (Option MsgsResult) × WState :=
  let jid := formatPhoneNumber phone
  let cleaned := digitsOf phone
  let chatId :=
    match st.contacts.find? fun p =>
        startsWithSeq cleaned.toList p.1.toList &&
          endsWithSeq "@c.us".toList p.1.toList with
    | some p => p.1
    | none => jid
  match fetchMessages st d chatId limit now with
  | (.error e, st2) => (.error e, st2)
  | (.ok _, st2) =>
    let r := msgsResultFor st2 chatId phone limit
    (.ok (some r.1), r.2)

/-- The `SendResult` interface (lines 52-56). -/
structure SendResult where
  success : Bool
  messageId : Option String := none
  contactId : Option String := none
deriving DecidableEq, Repr

/-- What a send method can throw: the `'WhatsApp client not ready'` guard
error, or a rethrown/constructed `Error` carrying a message string. -/
inductive SendErr where
  | notReady
  | thrown (msg : String)
deriving DecidableEq, Repr

/-- `err?.message || 'Failed to send message'` as relayed by the tool layer
(index.ts lines 370, 391). -/
def sendErrMsg : SendErr → String
  | .notReady => "WhatsApp client not ready"
  | .thrown m => if m = "" then "Failed to send message" else m

/-- `sendMessage` (lines 649-670): ready guard, send to the formatted jid,
rethrow driver errors.  The last component records whether the driver was
contacted. -/
def sendMessage (st : WState) (d : Driver) (recipient message : String) :
    Except SendErr SendResult × WState × Bool :=
  if st.clientAlive = false ∨ st.isReady = false then (.error .notReady, st, false)
  else
    let jid := formatPhoneNumber recipient
    match d.send jid message with
    | .ok mid => (.ok ⟨true, optNE (some mid), none⟩, st, true)
    | .error e => (.error (.thrown e), st, true)

/-- `sendMessageToContact` (lines 672-703): ready guard, name lookup
(possibly triggering a contact sync), throw on a lookup miss, otherwise
send and rethrow driver errors. -/
def sendMessageToContact (st : WState) (d : Driver) (name message : String) :
    Except SendErr SendResult × WState × Bool :=
  if st.clientAlive = false ∨ st.isReady = false then (.error .notReady, st, false)
  else
    let found := findContactByName st d name
    match found.1 with
    | none =>
      (.error (.thrown ("Contact \"" ++ name ++ "\" not found. Available contacts: " ++
          toString found.2.contacts.length)),
        found.2, st.contacts.isEmpty)
    | some cid =>
      match d.send cid message with
      | .ok mid => (.ok ⟨true, optNE (some mid), some cid⟩, found.2, true)
      | .error e => (.error (.thrown e), found.2, true)

/-- A tool handler's JSON reply, reduced to the two shapes the send tools
produce: an `{error}` object or a serialized `SendResult`. -/
inductive ToolOut where
  | err (s : String)
  | ok (r : SendResult)
deriving DecidableEq, Repr

/-- The `whatsapp_send_message` tool handler (index.ts lines 353-372):
argument check, `isClientReady()` guard, then delegate, turning a thrown
error into an `{error}` reply. -/
def handleSendMessageTool (st : WState) (d : Driver) (recipient message : String) :
    ToolOut × WState × Bool :=
  if recipient = "" ∨ message = "" then
    (.err "recipient and message are required", st, false)
  else if isClientReady st = false then
    (.err "WhatsApp is not connected. Check status first.", st, false)
  else
    match sendMessage st d recipient message with
    | (.ok r, st', c) => (.ok r, st', c)
    | (.error e, st', c) => (.err (sendErrMsg e), st', c)

/-- The `whatsapp_send_to_contact` tool handler (index.ts lines 374-393). -/
def handleSendToContactTool (st : WState) (d : Driver) (contactName message : String) :
    ToolOut × WState × Bool :=
  if contactName = "" ∨ message = "" then
    (.err "contactName and message are required", st, false)
  else if isClientReady st = false then
    (.err "WhatsApp is not connected. Check status first.", st, false)
  else
    match sendMessageToContact st d contactName message with
    | (.ok r, st', c) => (.ok r, st', c)
    | (.error e, st', c) => (.err (sendErrMsg e), st', c)

/-- `destroy` (lines 745-755): tear the driver session down and drop
readiness; caches are untouched. -/
def destroyClient (st : WState) : WState :=
  if st.clientAlive then { st with clientAlive := false, isReady := false } else st

/-- The synchronous state effect of `initialize()` (lines 127-277): a fresh
driver client is constructed and event handlers are attached
(`clientAlive := true`), and `startReadyPolling` (lines 306-308) marks the
poll loop as started unless the client is already ready.  Lifecycle events
and the QR challenge arrive later from the driver and are not part of this
synchronous step; the caches are not touched. -/
def initClient (st : WState) : WState :=
  { st with clientAlive := true,
            readyPollingStarted := st.readyPollingStarted || !st.isReady }

/-- The state of `resetAuth` (lines 833-863) just before the final
`initialize()` call: session destroyed, both in-memory caches cleared,
poll flag and QR challenge reset, persisted auth folder and contact-cache
file deleted. -/
def resetAuthMid (st : WState) : WState :=
  let st1 := destroyClient st
  { st1 with contacts := [], messages := [],
             readyPollingStarted := false, qrCode := none,
             authFolderExists := false, contactsFileExists := false }

/-- `resetAuth` (lines 833-863): the teardown/clear/delete sequence above,
followed by `initialize()`. -/
def resetAuth (st : WState) : WState :=
  initClient (resetAuthMid st)

/-! ### Concrete data used by counterexamples and witnesses -/

/-- An inbound message with timestamp 100. -/
def msgT100 : StoredMessage := ⟨"a", "c@c.us", "me", "hi", 100, false, none⟩

/-- An inbound message with timestamp 50 and a fresh id. -/
def msgT50 : StoredMessage := ⟨"b", "c@c.us", "me", "yo", 50, false, none⟩

/-- An inbound message with timestamp 70 in a second conversation. -/
def msgT70 : StoredMessage := ⟨"n", "b@c.us", "me", "ok", 70, false, none⟩

/-- Ten distinct messages whose bodies all contain the letter `x`. -/
def tenMatching : List StoredMessage :=
  (List.range 10).map fun i => ⟨toString i, "", "", "x", i, false, none⟩

/-- A ready client state whose cache holds two conversations with ten
matching messages each. -/
def stSearch : WState :=
  { clientAlive := true, isReady := true,
    messages := [("a@c.us", tenMatching), ("b@c.us", tenMatching)] }

/-- The per-conversation match counts of a search reply. -/
def countsOf (r : Except String (List SearchEntry)) : List Nat :=
  match r with
  | .ok l => l.map fun e => e.messages.length
  | .error _ => []

/-- The greatest timestamp present in a log (the "most recent message"). -/
def maxTs (l : List StoredMessage) : Nat :=
  l.foldr (fun m acc => max m.timestamp acc) 0

/-- A driver whose every call fails. -/
def dFail : Driver :=
  ⟨fun _ _ => .error "send failed", fun _ _ => .error "fetch failed",
    .error "getContacts failed", .error "getChats failed"⟩

/-- A driver whose calls succeed but return nothing. -/
def dEmpty : Driver :=
  ⟨fun _ _ => .ok "msgid1", fun _ _ => .ok [], .ok [], .ok []⟩

/-- A ready client state with one cached conversation. -/
def stOneMsg : WState :=
  { clientAlive := true, isReady := true, messages := [("c@c.us", [msgT100])] }

/-- 1001 raw driver messages with pairwise-distinct non-empty ids. -/
def bigRaws : List RawMsg :=
  (List.range 1001).map fun i =>
    { idSer := some (String.mk (List.replicate (i + 1) 'a')) }

/-- A ready client state with an empty message cache. -/
def stEmptyReady : WState := { clientAlive := true, isReady := true }

/-- A driver that returns `bigRaws` from every history fetch. -/
def dBig : Driver :=
  ⟨fun _ _ => .error "n/a", fun _ _ => .ok bigRaws, .error "n/a", .error "n/a"⟩

/-- A ready state with one contact that matches neither the phone `123` nor
the name query `zzz`. -/
def stPhone : WState :=
  { clientAlive := true, isReady := true,
    contacts := [("g@g.us", ⟨some "Bob", none⟩)] }

/-!
## Theorems

Helper lemmas first, then one theorem (plus witness or counterexample) per
claim of the specification review.
-/

/-- `'@'` survives no digit filter: the guard branch of `formatPhoneNumber`
can never trigger. -/
theorem containsSeq_at_filter_digits (l : List Char) :
    containsSeq "@".toList (l.filter Char.isDigit) = false := by
  have hat : "@".toList = ['@'] := rfl
  rw [hat]
  induction l with
  | nil => rfl
  | cons c t ih =>
    by_cases h : c.isDigit
    · have hc : ('@' == c) = false := by
        have : c ≠ '@' := by
          intro e
          rw [e] at h
          simp [Char.isDigit] at h
        simp [beq_eq_false_iff_ne]
        exact fun e => this e.symm
      simp [List.filter_cons, h, containsSeq, startsWithSeq, hc, ih]
    · simp only [List.filter_cons, h]
      simpa using ih

/-- Closed form of `formatPhoneNumber`: digits of the input followed by
`@c.us`, for every input. -/
theorem formatPhoneNumber_eq (s : String) :
    formatPhoneNumber s = digitsOf s ++ "@c.us" := by
  have h : containsSeq ['@'] (digitsOf s).data = false :=
    containsSeq_at_filter_digits s.toList
  simp [formatPhoneNumber, h]

/-- C9: `formatPhoneNumber` returns exactly the digit characters of its input
followed by `@c.us`; the `includes('@')` branch is unreachable because every
`@` has already been stripped, so `"123@g.us"` is mapped to `"123@c.us"`. -/
theorem c9_formatPhoneNumber_spec :
    (∀ phone, formatPhoneNumber phone = digitsOf phone ++ "@c.us") ∧
      formatPhoneNumber "123@g.us" = "123@c.us" :=
  ⟨formatPhoneNumber_eq, by decide⟩

/-- The dedup scan `chatMessages.find(m => m.id === storedMsg.id)` succeeds
exactly when the id is already stored. -/
theorem any_id_iff {log : List StoredMessage} {i : String} :
    log.any (fun x => x.id == i) = true ↔ i ∈ logIds log := by
  rw [List.any_eq_true]
  constructor
  · rintro ⟨x, hx, hbeq⟩
    have hid : x.id = i := beq_iff_eq.mp hbeq
    rw [← hid]
    exact List.mem_map_of_mem _ hx
  · intro hmem
    rcases List.mem_map.mp hmem with ⟨x, hx, hid⟩
    exact ⟨x, hx, beq_iff_eq.mpr hid⟩

/-- Appending a message whose id is absent preserves id-uniqueness. -/
theorem idsNodup_append_fresh {log : List StoredMessage} {m : StoredMessage}
    (hany : log.any (fun x => x.id == m.id) = false) (h : IdsNodup log) :
    IdsNodup (log ++ [m]) := by
  have hnotin : m.id ∉ logIds log := by
    intro hmem
    rw [← any_id_iff] at hmem
    rw [hany] at hmem
    exact Bool.false_ne_true hmem
  unfold IdsNodup logIds at *
  rw [List.map_append]
  rw [List.nodup_append]
  refine ⟨h, List.nodup_singleton _, ?_⟩
  intro a ha hb
  simp only [List.map_cons, List.map_nil, List.mem_singleton] at hb
  exact hnotin (hb ▸ ha)

/-- Membership is preserved by the dedup insert. -/
theorem mem_insertIfAbsent_self {log : List StoredMessage} {m r : StoredMessage}
    (h : r ∈ log) : r ∈ insertIfAbsent log m := by
  unfold insertIfAbsent
  split
  · exact h
  · exact List.mem_append_left _ h

/-- Everything in a dedup-inserted log is old or the new message. -/
theorem mem_of_mem_insertIfAbsent {log : List StoredMessage} {m x : StoredMessage}
    (h : x ∈ insertIfAbsent log m) : x ∈ log ∨ x = m := by
  unfold insertIfAbsent at h
  split at h
  · exact Or.inl h
  · rcases List.mem_append.mp h with h2 | h2
    · exact Or.inl h2
    · exact Or.inr (List.mem_singleton.mp h2)

/-- The dedup insert preserves id-uniqueness. -/
theorem idsNodup_insertIfAbsent {log : List StoredMessage} {m : StoredMessage}
    (h : IdsNodup log) : IdsNodup (insertIfAbsent log m) := by
  unfold insertIfAbsent
  split
  · exact h
  · rename_i hany
    simp only [Bool.not_eq_true] at hany
    exact idsNodup_append_fresh hany h

/-- Live ingestion preserves id-uniqueness (the eviction `shift()` only
removes an entry). -/
theorem idsNodup_ingestLive {log : List StoredMessage} {m : StoredMessage}
    (h : IdsNodup log) : IdsNodup (ingestLive log m) := by
  unfold ingestLive
  split
  · exact h
  · rename_i hany
    simp only [Bool.not_eq_true] at hany
    have happ : IdsNodup (log ++ [m]) := idsNodup_append_fresh hany h
    split
    · unfold IdsNodup logIds at *
      exact ((List.drop_sublist 1 _).map StoredMessage.id).nodup happ
    · exact happ

/-- Unfolding equation for the fetch-merge loop. -/
theorem fetchMerge_cons (log : List StoredMessage) (m : StoredMessage)
    (ms : List StoredMessage) :
    fetchMerge log (m :: ms) = fetchMerge (insertIfAbsent log m) ms := rfl

/-- Cached records survive a fetch-merge. -/
theorem mem_fetchMerge_self {ms log : List StoredMessage} {r : StoredMessage}
    (h : r ∈ log) : r ∈ fetchMerge log ms := by
  induction ms generalizing log with
  | nil => exact h
  | cons m ms ih =>
    rw [fetchMerge_cons]
    exact ih (mem_insertIfAbsent_self h)

/-- Everything in a merged log is old or fetched. -/
theorem mem_of_mem_fetchMerge {ms log : List StoredMessage} {x : StoredMessage}
    (h : x ∈ fetchMerge log ms) : x ∈ log ∨ x ∈ ms := by
  induction ms generalizing log with
  | nil => exact Or.inl h
  | cons m ms ih =>
    rw [fetchMerge_cons] at h
    rcases ih h with h2 | h2
    · rcases mem_of_mem_insertIfAbsent h2 with h3 | h3
      · exact Or.inl h3
      · exact Or.inr (by simp [h3])
    · exact Or.inr (List.mem_cons_of_mem _ h2)

/-- The fetch-merge loop preserves id-uniqueness. -/
theorem idsNodup_fetchMerge {ms log : List StoredMessage} (h : IdsNodup log) :
    IdsNodup (fetchMerge log ms) := by
  induction ms generalizing log with
  | nil => exact h
  | cons m ms ih =>
    rw [fetchMerge_cons]
    exact ih (idsNodup_insertIfAbsent h)

/-- The timestamp re-sort is a permutation, so membership is unchanged. -/
theorem mem_insertionSortTs {l : List StoredMessage} {x : StoredMessage} :
    x ∈ insertionSortTs l ↔ x ∈ l := by
  unfold insertionSortTs
  exact List.mem_insertionSort tsLE

/-- The timestamp re-sort preserves id-uniqueness. -/
theorem idsNodup_insertionSortTs {l : List StoredMessage} (h : IdsNodup l) :
    IdsNodup (insertionSortTs l) := by
  have hp : List.Perm (insertionSortTs l) l := List.perm_insertionSort tsLE l
  exact ((hp.map StoredMessage.id).nodup_iff).mpr h

/-- In an id-unique log, a record is determined by its id. -/
theorem eq_of_idsNodup {L : List StoredMessage} {r x : StoredMessage}
    (h : IdsNodup L) (hr : r ∈ L) (hx : x ∈ L) (hid : x.id = r.id) : x = r :=
  List.inj_on_of_nodup_map h hx hr hid

/-- Every cache mutation preserves id-uniqueness. -/
theorem idsNodup_applyOp {log : List StoredMessage} (op : CacheOp)
    (h : IdsNodup log) : IdsNodup (applyOp log op) := by
  cases op with
  | live m => exact idsNodup_ingestLive h
  | fetch ms => exact idsNodup_fetchMerge h
  | fetchMore ms => exact idsNodup_insertionSortTs (idsNodup_fetchMerge h)

/-- Every sequence of cache mutations preserves id-uniqueness. -/
theorem idsNodup_applyOps {ops : List CacheOp} {log : List StoredMessage}
    (h : IdsNodup log) : IdsNodup (applyOps log ops) := by
  induction ops generalizing log with
  | nil => exact h
  | cons op ops ih => exact ih (idsNodup_applyOp op h)

/-- First-writer-wins: after any single mutation, any record carrying the id
of a previously-cached record *is* that record — a cached record is never
overwritten by a later copy with the same id. -/
theorem keep_applyOp {log : List StoredMessage} {op : CacheOp}
    {r x : StoredMessage} (h : IdsNodup log) (hr : r ∈ log)
    (hx : x ∈ applyOp log op) (hid : x.id = r.id) : x = r := by
  cases op with
  | live m =>
    have hx' : x ∈ ingestLive log m := hx
    unfold ingestLive at hx'
    split at hx'
    · exact eq_of_idsNodup h hr hx' hid
    · rename_i hany
      have hxm : x ∈ log ++ [m] := by
        split at hx'
        · exact List.drop_subset 1 _ hx'
        · exact hx'
      rcases List.mem_append.mp hxm with h2 | h2
      · exact eq_of_idsNodup h hr h2 hid
      · exfalso
        have hxm2 : x = m := List.mem_singleton.mp h2
        apply hany
        rw [any_id_iff, ← hxm2, hid]
        exact List.mem_map_of_mem _ hr
  | fetch ms =>
    exact eq_of_idsNodup (idsNodup_fetchMerge h) (mem_fetchMerge_self hr) hx hid
  | fetchMore ms =>
    exact eq_of_idsNodup (idsNodup_insertionSortTs (idsNodup_fetchMerge h))
      (mem_insertionSortTs.mpr (mem_fetchMerge_self hr)) hx hid

/-- C1: starting from any id-unique per-conversation log, every sequence of
live ingestions and fetch-merges keeps each message id present at most once,
and after any single mutation a previously-cached record is never replaced
by a later copy with the same id (first-writer-wins dedup). -/
theorem c1_merge_idempotent (ops : List CacheOp) (log : List StoredMessage)
    (op : CacheOp) (r x : StoredMessage) (h : IdsNodup log) (hr : r ∈ log)
    (hx : x ∈ applyOp log op) (hid : x.id = r.id) :
    IdsNodup (applyOps log ops) ∧ x = r :=
  ⟨idsNodup_applyOps h, keep_applyOp h hr hx hid⟩

/-- Witness for `c1_merge_idempotent`: a live ingestion followed by a
fetch-merge that re-delivers an already-cached id. -/
theorem c1_merge_idempotent_witness :
    IdsNodup (applyOps [msgT100]
        [CacheOp.live msgT50, CacheOp.fetch [msgT100, msgT70]]) ∧
      msgT100 = msgT100 :=
  c1_merge_idempotent [CacheOp.live msgT50, CacheOp.fetch [msgT100, msgT70]]
    [msgT100] (CacheOp.fetch [msgT100]) msgT100 msgT100
    (by decide) (by decide) (by decide) rfl

/-- The executable sortedness check holds on every `List.Sorted` log. -/
theorem sortedByTs_of_sorted : ∀ {l : List StoredMessage},
    List.Sorted tsLE l → sortedByTs l = true
  | [], _ => rfl
  | [_], _ => rfl
  | a :: b :: rest, h => by
    have h1 : tsLE a b := List.rel_of_sorted_cons h b (List.mem_cons_self b rest)
    have h2 : sortedByTs (b :: rest) = true := sortedByTs_of_sorted h.of_cons
    simp only [sortedByTs, h2, Bool.and_true, decide_eq_true_eq]
    exact h1

/-- The modelled `Array.prototype.sort` really sorts by timestamp. -/
theorem sortedByTs_insertionSortTs (l : List StoredMessage) :
    sortedByTs (insertionSortTs l) = true :=
  sortedByTs_of_sorted (List.sorted_insertionSort tsLE l)

/-- Reading back the key just written into the message map. -/
theorem cacheGet?_cacheSet_self (c : Cache) (k : String) (v : List StoredMessage) :
    cacheGet? (cacheSet c k v) k = some v := by
  induction c with
  | nil => simp [cacheSet, cacheGet?]
  | cons p rest ih =>
    obtain ⟨k', v'⟩ := p
    by_cases h : k' = k
    · simp [cacheSet, h, cacheGet?]
    · simp [cacheSet, h, cacheGet?, ih]

/-- Reading back the key just written, with the `|| []` default. -/
theorem cacheGet_cacheSet_self (c : Cache) (k : String) (v : List StoredMessage) :
    cacheGet (cacheSet c k v) k = v := by
  simp [cacheGet, cacheGet?_cacheSet_self]

/-- Two consecutive writes to one key collapse to the second. -/
theorem cacheSet_cacheSet_self (c : Cache) (k : String)
    (v w : List StoredMessage) : cacheSet (cacheSet c k v) k w = cacheSet c k w := by
  induction c with
  | nil => simp [cacheSet]
  | cons p rest ih =>
    obtain ⟨k', v'⟩ := p
    by_cases h : k' = k
    · simp [cacheSet, h]
    · simp [cacheSet, h, ih]

/-- C2 counterexample: the stored log is *not* sorted after every mutation.
A live event with timestamp 100 followed by one with timestamp 50 leaves the
stored log `[msgT100, msgT50]`, which fails the sortedness check; likewise
the `fetchMessages` merge loop stores fetched messages unsorted (it sorts
only its returned copy). -/
theorem c2_counterexample :
    applyOp (applyOp [] (CacheOp.live msgT100)) (CacheOp.live msgT50) =
        [msgT100, msgT50] ∧
      sortedByTs (applyOp (applyOp [] (CacheOp.live msgT100))
        (CacheOp.live msgT50)) = false ∧
      sortedByTs (applyOp [msgT100] (CacheOp.fetch [msgT50])) = false ∧
      msgT100.timestamp = 100 ∧ msgT50.timestamp = 50 := by
  decide

/-- C2 (amended): only `fetchMoreMessages` re-sorts the *stored* log, which
is therefore sorted non-decreasing by timestamp after it succeeds;
`fetchMessages` sorts only the list it returns.  (Live ingestion and the
`fetchMessages` merge loop do not sort the stored log — see the
counterexample.) -/
theorem c2_sorted_amended (st : WState) (d : Driver) (chatId : String)
    (count now limit : Nat) (raws raws2 : List RawMsg)
    (h1 : st.clientAlive = true) (h2 : st.isReady = true)
    (hfetch : d.fetch chatId
      (max ((cacheGet st.messages chatId).length + count) 100) = .ok raws)
    (hfetch2 : d.fetch chatId limit = .ok raws2) :
    sortedByTs
        (cacheGet (fetchMoreMessages st d chatId count now).2.messages chatId) =
        true ∧
      (fetchMessages st d chatId limit now).1 =
        .ok (insertionSortTs (raws2.map (toStored chatId now))) ∧
      sortedByTs (insertionSortTs (raws2.map (toStored chatId now))) = true := by
  refine ⟨?_, ?_, sortedByTs_insertionSortTs _⟩
  · rw [fetchMoreMessages]
    simp only [h1, h2, hfetch]
    simp [cacheGet_cacheSet_self, sortedByTs_insertionSortTs]
  · rw [fetchMessages]
    simp [h1, h2, hfetch2]

/-- Witness for `c2_sorted_amended` on a ready state and a driver whose
fetch succeeds with no messages. -/
theorem c2_sorted_amended_witness :
    sortedByTs
        (cacheGet (fetchMoreMessages stEmptyReady dEmpty "c@c.us" 5 0).2.messages
          "c@c.us") = true ∧
      (fetchMessages stEmptyReady dEmpty "c@c.us" 10 0).1 =
        .ok (insertionSortTs (List.map (toStored "c@c.us" 0) [])) ∧
      sortedByTs (insertionSortTs (List.map (toStored "c@c.us" 0) [])) = true :=
  c2_sorted_amended stEmptyReady dEmpty "c@c.us" 5 0 10 [] [] rfl rfl rfl rfl

/-- Merging entirely fresh, pairwise-distinct messages simply appends them:
the fetch loop performs no eviction. -/
theorem fetchMerge_eq_append : ∀ (ms log : List StoredMessage),
    (∀ m ∈ ms, ∀ x ∈ log, x.id ≠ m.id) → IdsNodup ms →
    fetchMerge log ms = log ++ ms := by
  intro ms
  induction ms with
  | nil => intro log _ _; simp [fetchMerge]
  | cons m ms ih =>
    intro log h hnodup
    have hany : log.any (fun x => x.id == m.id) = false := by
      rw [Bool.eq_false_iff]
      intro htrue
      rw [any_id_iff] at htrue
      rcases List.mem_map.mp htrue with ⟨x, hx, hid⟩
      exact h m (List.mem_cons_self m ms) x hx hid
    have hins : insertIfAbsent log m = log ++ [m] := by
      simp [insertIfAbsent, hany]
    have htail : IdsNodup ms := by
      unfold IdsNodup logIds at hnodup ⊢
      rw [List.map_cons, List.nodup_cons] at hnodup
      exact hnodup.2
    rw [fetchMerge_cons, hins, ih]
    · simp
    · intro m' hm' x hx
      rcases List.mem_append.mp hx with h2 | h2
      · exact h m' (List.mem_cons_of_mem _ hm') x h2
      · have hxm : x = m := List.mem_singleton.mp h2
        subst hxm
        intro heq
        unfold IdsNodup logIds at hnodup
        rw [List.map_cons, List.nodup_cons] at hnodup
        exact hnodup.1 (heq ▸ List.mem_map_of_mem _ hm')
    · exact htail

/-- The `fetchMessages` cache loop — one `get`/dedup-insert/`set` per fetched
message, all on the same key — equals one merged write of that key. -/
theorem fetchFold_cons (k : String) : ∀ (ms : List StoredMessage)
    (m : StoredMessage) (c : Cache),
    List.foldl (fun c x => cacheSet c k (insertIfAbsent (cacheGet c k) x))
        c (m :: ms) =
      cacheSet c k (fetchMerge (cacheGet c k) (m :: ms)) := by
  intro ms
  induction ms with
  | nil => intro m c; rfl
  | cons m2 ms ih =>
    intro m c
    rw [List.foldl_cons, ih m2]
    rw [cacheGet_cacheSet_self, cacheSet_cacheSet_self]
    rfl

/-- `fetchFold_cons` for any non-empty fetched batch. -/
theorem fetchFold_ne_nil (k : String) (ms : List StoredMessage)
    (h : ms ≠ []) (c : Cache) :
    List.foldl (fun c x => cacheSet c k (insertIfAbsent (cacheGet c k) x)) c ms =
      cacheSet c k (fetchMerge (cacheGet c k) ms) := by
  cases ms with
  | nil => exact absurd rfl h
  | cons m ms => exact fetchFold_cons k ms m c

/-- Reduction of `fetchMessages` on a ready client whose driver fetch
succeeds. -/
theorem fetchMessages_ok (st : WState) (d : Driver) (chatId : String)
    (limit now : Nat) (raws : List RawMsg)
    (h1 : st.clientAlive = true) (h2 : st.isReady = true)
    (hf : d.fetch chatId limit = .ok raws) :
    fetchMessages st d chatId limit now =
      (.ok (insertionSortTs (raws.map (toStored chatId now))),
        { st with
          messages :=
            ((raws.map (toStored chatId now)).foldl
              (fun c m => cacheSet c chatId (insertIfAbsent (cacheGet c chatId) m))
              st.messages) }) := by
  rw [fetchMessages]
  simp [h1, h2, hf]

/-- The 1001 converted messages of `bigRaws` carry pairwise-distinct ids. -/
theorem idsNodup_bigStored (cid : String) (now : Nat) :
    IdsNodup (bigRaws.map (toStored cid now)) := by
  unfold IdsNodup logIds bigRaws
  rw [List.map_map, List.map_map]
  have hmapeq : List.map
      ((StoredMessage.id ∘ toStored cid now) ∘ fun i =>
        ({ idSer := some (String.mk (List.replicate (i + 1) 'a')) } : RawMsg))
      (List.range 1001) =
      List.map (fun i => String.mk (List.replicate (i + 1) 'a'))
        (List.range 1001) := by
    apply List.map_congr_left
    intro i _
    have hne : String.mk (List.replicate (i + 1) 'a') ≠ "" := by
      intro h
      have hdata := congrArg String.data h
      simp [List.replicate] at hdata
    simp [Function.comp, toStored, jsOrS, hne]
  rw [hmapeq]
  apply List.Nodup.map
  · intro i j hij
    have hdata := congrArg String.data hij
    simp only at hdata
    have hlen := congrArg List.length hdata
    simp only [List.length_replicate] at hlen
    omega
  · exact List.nodup_range 1001

/-- C3 counterexample: a single `fetchMessages` call that delivers 1001
distinct messages grows the stored log to 1001 entries — the fetch-merge
paths enforce no cap, so the log exceeds 1000. -/
theorem c3_counterexample :
    (cacheGet (fetchMessages stEmptyReady dBig "c@c.us" 1001 0).2.messages
        "c@c.us").length = 1001 ∧
      1000 <
        (cacheGet (fetchMessages stEmptyReady dBig "c@c.us" 1001 0).2.messages
          "c@c.us").length := by
  have h0 : (fetchMessages stEmptyReady dBig "c@c.us" 1001 0).2.messages =
      List.foldl
        (fun c x => cacheSet c "c@c.us" (insertIfAbsent (cacheGet c "c@c.us") x))
        [] (bigRaws.map (toStored "c@c.us" 0)) := by
    rw [fetchMessages_ok stEmptyReady dBig "c@c.us" 1001 0 bigRaws rfl rfl rfl]
    dsimp only
    rw [show stEmptyReady.messages = ([] : Cache) from rfl]
  have hlenmap : (bigRaws.map (toStored "c@c.us" 0)).length = 1001 := by
    rw [List.length_map]
    unfold bigRaws
    rw [List.length_map, List.length_range]
  have hne : bigRaws.map (toStored "c@c.us" 0) ≠ [] := by
    intro h
    rw [h] at hlenmap
    simp at hlenmap
  have hmerge : fetchMerge (cacheGet [] "c@c.us") (bigRaws.map (toStored "c@c.us" 0)) =
      bigRaws.map (toStored "c@c.us" 0) := by
    have : cacheGet [] "c@c.us" = [] := rfl
    rw [this, fetchMerge_eq_append]
    · simp
    · intro m _ x hx
      simp at hx
    · exact idsNodup_bigStored "c@c.us" 0
  have hlen : (cacheGet (fetchMessages stEmptyReady dBig "c@c.us" 1001 0).2.messages
      "c@c.us").length = 1001 := by
    rw [h0, fetchFold_ne_nil _ _ hne, cacheGet_cacheSet_self, hmerge, hlenmap]
  exact ⟨hlen, by omega⟩

/-- C3 (amended): only live-event ingestion enforces the 1000-entry cap,
evicting the head (oldest-stored) entry when a fresh message would exceed
it; the fetch-merge paths append without any cap (see the counterexample). -/
theorem c3_cap_amended (log : List StoredMessage) (m : StoredMessage)
    (h : log.length ≤ 1000) :
    (ingestLive log m).length ≤ 1000 ∧
      (log.length = 1000 → log.any (fun x => x.id == m.id) = false →
        ingestLive log m = log.drop 1 ++ [m]) := by
  constructor
  · unfold ingestLive
    split
    · exact h
    · split <;> rename_i hlen
      · simp only [List.length_drop, List.length_append, List.length_cons,
          List.length_nil]
        omega
      · simp only [List.length_append, List.length_cons, List.length_nil] at hlen ⊢
        omega
  · intro hlen hany
    unfold ingestLive
    rw [if_neg (by simp [hany]), if_pos (by simp [hlen])]
    exact List.drop_append_of_le_length (by omega)

/-- Reduction of `fetchMessages` on a ready client whose driver fetch fails:
the catch block returns `[]` and the state is untouched. -/
theorem fetchMessages_error (st : WState) (d : Driver) (chatId : String)
    (limit now : Nat) (e : String) (h1 : st.clientAlive = true)
    (h2 : st.isReady = true) (hf : d.fetch chatId limit = .error e) :
    fetchMessages st d chatId limit now = (.ok [], st) := by
  rw [fetchMessages]
  simp [h1, h2, hf]

/-- C6 counterexample: on a driver failure `fetchMessages` does *not* return
the (unchanged) cached log — it returns the empty list even though the cache
holds `[msgT100]`. -/
theorem c6_counterexample :
    (fetchMessages stOneMsg dFail "c@c.us" 50 0).1 = Except.ok [] ∧
      cacheGet stOneMsg.messages "c@c.us" = [msgT100] ∧
      (Except.ok [] : Except String (List StoredMessage)) ≠
        Except.ok [msgT100] := by
  decide

/-- C6 (amended): when the driver call fails, neither fetch operation
throws and the cache (indeed the whole client state) is left unchanged;
`fetchMessages` returns an *empty list* (not the cached log) and
`fetchMoreMessages` reports zero new messages with the prior count. -/
theorem c6_driver_failure_amended (st : WState) (d : Driver) (chatId : String)
    (limit count now : Nat) (e1 e2 : String)
    (h1 : st.clientAlive = true) (h2 : st.isReady = true)
    (hf1 : d.fetch chatId limit = .error e1)
    (hf2 : d.fetch chatId
      (max ((cacheGet st.messages chatId).length + count) 100) = .error e2) :
    fetchMessages st d chatId limit now = (.ok [], st) ∧
      fetchMoreMessages st d chatId count now =
        (.ok ⟨false, (cacheGet st.messages chatId).length, 0⟩, st) := by
  refine ⟨fetchMessages_error st d chatId limit now e1 h1 h2 hf1, ?_⟩
  rw [fetchMoreMessages]
  simp [h1, h2, hf2]

/-- Witness for `c6_driver_failure_amended` on a concrete cached state and a
failing driver. -/
theorem c6_driver_failure_amended_witness :
    fetchMessages stOneMsg dFail "c@c.us" 50 0 = (.ok [], stOneMsg) ∧
      fetchMoreMessages stOneMsg dFail "c@c.us" 5 0 =
        (.ok ⟨false, (cacheGet stOneMsg.messages "c@c.us").length, 0⟩, stOneMsg) :=
  c6_driver_failure_amended stOneMsg dFail "c@c.us" 50 5 0
    "fetch failed" "fetch failed" rfl rfl rfl rfl

/-- Witness for `c3_cap_amended` at a one-message log. -/
theorem c3_cap_amended_witness :
    (ingestLive [msgT100] msgT50).length ≤ 1000 ∧
      ((msgT100 :: []).length = 1000 →
        (List.any [msgT100] fun x => x.id == msgT50.id) = false →
        ingestLive [msgT100] msgT50 = List.drop 1 [msgT100] ++ [msgT50]) :=
  c3_cap_amended [msgT100] msgT50 (by decide)

/-- `slice(-k)` with a positive budget returns at most `k` elements. -/
theorem jsSliceNeg_length_le {k : Nat} (hk : 0 < k) (l : List StoredMessage) :
    (jsSliceNeg k l).length ≤ k := by
  unfold jsSliceNeg
  rw [if_neg (Nat.pos_iff_ne_zero.mp hk)]
  rw [List.length_drop]
  omega

/-- `slice(-k)` of a non-empty array is non-empty (also when `k = 0`, which
returns the whole array). -/
theorem jsSliceNeg_ne_nil {l : List StoredMessage} (h : l ≠ []) (k : Nat) :
    jsSliceNeg k l ≠ [] := by
  unfold jsSliceNeg
  split
  · exact h
  · rename_i hk
    intro hnil
    have hlen := congrArg List.length hnil
    rw [List.length_drop] at hlen
    have hpos : 0 < l.length := List.length_pos.mpr h
    simp at hlen
    omega

/-- Every conversation the all-chats search returns has at least one
matching message. -/
theorem searchAllGo_messages_ne_nil (q : String) (lim : Nat) (cts : Contacts) :
    ∀ (cache : Cache) (n : Nat) (e : SearchEntry),
      e ∈ searchAllGo q lim cts cache n → e.messages ≠ [] := by
  intro cache
  induction cache with
  | nil => intro n e h; simp [searchAllGo] at h
  | cons p rest ih =>
    intro n e h
    obtain ⟨cId, msgs⟩ := p
    rw [searchAllGo] at h
    split at h
    · exact ih n e h
    · rename_i hemp
      rcases List.mem_cons.mp h with h2 | h2
      · subst h2
        exact jsSliceNeg_ne_nil (by simpa using hemp) _
      · exact ih (n + 1) e h2

/-- Positional budget of the all-chats search: the entry at index `i`
(having entered with `n` results already accumulated) holds at most
`limit / (n + i + 1)` messages whenever that floor is positive. -/
theorem searchAllGo_count (q : String) (lim : Nat) (cts : Contacts) :
    ∀ (cache : Cache) (n i : Nat) (e : SearchEntry),
      (searchAllGo q lim cts cache n)[i]? = some e → 0 < lim / (n + i + 1) →
      e.messages.length ≤ lim / (n + i + 1) := by
  intro cache
  induction cache with
  | nil => intro n i e h _; simp [searchAllGo] at h
  | cons p rest ih =>
    intro n i e h hpos
    obtain ⟨cId, msgs⟩ := p
    rw [searchAllGo] at h
    split at h
    · exact ih n i e h hpos
    · cases i with
      | zero =>
        rw [List.getElem?_cons_zero] at h
        have he : e = ⟨cId, chatNameOf cts cId,
            jsSliceNeg (lim / (n + 1)) (msgs.filter (bodyMatch q))⟩ :=
          (Option.some.injEq _ _ ▸ h).symm
        subst he
        have harith : n + 0 + 1 = n + 1 := by omega
        rw [harith] at hpos ⊢
        exact jsSliceNeg_length_le hpos _
      | succ j =>
        rw [List.getElem?_cons_succ] at h
        have harith : n + (j + 1) + 1 = (n + 1) + j + 1 := by omega
        rw [harith] at hpos ⊢
        exact ih (n + 1) j e h hpos

/-- C4 counterexample: with `limit = 10` and two conversations holding ten
matches each, the all-chats search returns match counts `[10, 5]`, whose sum
15 exceeds the limit — the budget is not divided so that counts sum to at
most `limit`, and the division is not even. -/
theorem c4_counterexample :
    countsOf (searchMessages stSearch "x" none 10) = [10, 5] ∧
      ¬ (10 + 5 ≤ 10) := by
  decide

/-- C4 (amended): the all-chats search scans every conversation; the entry
at 0-based position `i` receives the last `limit / (i + 1)` of its matches
(all of them when that floor is 0), so per-conversation counts are bounded
positionally but need not sum to `limit`; every returned conversation has at
least one match and at most 20 conversations are returned. -/
theorem c4_search_amended (st : WState) (query : String) (limit : Nat)
    (h1 : st.clientAlive = true) (h2 : st.isReady = true) :
    ∃ entries, searchMessages st query none limit = .ok entries ∧
      entries.length ≤ 20 ∧
      (∀ e ∈ entries, e.messages ≠ []) ∧
      (∀ i e, entries[i]? = some e → 0 < limit / (i + 1) →
        e.messages.length ≤ limit / (i + 1)) := by
  refine ⟨(searchAllGo query limit st.contacts st.messages 0).take 20,
    ?_, ?_, ?_, ?_⟩
  · rw [searchMessages]
    simp [h1, h2]
  · exact List.length_take_le 20 _
  · intro e he
    exact searchAllGo_messages_ne_nil query limit st.contacts st.messages 0 e
      (List.mem_of_mem_take he)
  · intro i e he hpos
    have hi : i < 20 := by
      rcases List.getElem?_eq_some.mp he with ⟨hlt, _⟩
      have := List.length_take_le 20
        (searchAllGo query limit st.contacts st.messages 0)
      omega
    rw [List.getElem?_take_of_lt hi] at he
    have := searchAllGo_count query limit st.contacts st.messages 0 i e he
    simpa using this (by simpa using hpos)

/-- Witness for `c4_search_amended` on the two-conversation state. -/
theorem c4_search_amended_witness :
    ∃ entries, searchMessages stSearch "x" none 10 = .ok entries ∧
      entries.length ≤ 20 ∧
      (∀ e ∈ entries, e.messages ≠ []) ∧
      (∀ i e, entries[i]? = some e → 0 < 10 / (i + 1) →
        e.messages.length ≤ 10 / (i + 1)) :=
  c4_search_amended stSearch "x" 10 rfl rfl

/-- With duplicate-free keys, `Map.get` finds exactly the stored value. -/
theorem cacheGet?_eq_of_mem : ∀ {c : Cache} {k : String} {v : List StoredMessage},
    (c.map Prod.fst).Nodup → (k, v) ∈ c → cacheGet? c k = some v := by
  intro c
  induction c with
  | nil => intro k v _ h; simp at h
  | cons p rest ih =>
    intro k v hnd hmem
    obtain ⟨k', v'⟩ := p
    rw [List.map_cons, List.nodup_cons] at hnd
    rcases List.mem_cons.mp hmem with h | h
    · rw [Prod.mk.injEq] at h
      rw [cacheGet?, if_pos h.1.symm]
      rw [h.2]
    · have hk : k' ≠ k := by
        intro he
        apply hnd.1
        rw [he]
        exact List.mem_map.mpr ⟨(k, v), h, rfl⟩
      rw [cacheGet?, if_neg hk]
      exact ih hnd.2 h

/-- C8 counterexample: conversations are ordered by the timestamp of the
*last stored* message, not the most recent one.  Conversation `a@c.us`
holds the most recent message overall (timestamp 100) but is listed second,
because its last stored message has timestamp 50 while `b@c.us` ends at
70. -/
theorem c8_counterexample :
    (getRecentMessages [("a@c.us", [msgT100, msgT50]), ("b@c.us", [msgT70])]
        [] 20).map SearchEntry.chatId = ["b@c.us", "a@c.us"] ∧
      maxTs (cacheGet [("a@c.us", [msgT100, msgT50]), ("b@c.us", [msgT70])]
        "a@c.us") = 100 ∧
      maxTs (cacheGet [("a@c.us", [msgT100, msgT50]), ("b@c.us", [msgT70])]
        "b@c.us") = 70 ∧
      (70 : Nat) < 100 := by
  decide

/-- C8 (amended): `getRecentMessages` never returns a conversation with an
empty cached log, returns at most `limit` conversations, returns the last 5
stored messages of each included conversation, and orders conversations by
*last-stored-message* timestamp descending (which is the most-recent
timestamp whenever the log is sorted). -/
theorem c8_recent_amended (cache : Cache) (contacts : Contacts) (limit : Nat)
    (hk : (cache.map Prod.fst).Nodup) :
    (getRecentMessages cache contacts limit).length ≤ limit ∧
      (∀ e ∈ getRecentMessages cache contacts limit,
        e.messages ≠ [] ∧ ∃ msgs, cacheGet? cache e.chatId = some msgs ∧
          msgs ≠ [] ∧ e.messages = jsSliceNeg 5 msgs) ∧
      (getRecentMessages cache contacts limit).Pairwise recentLE := by
  refine ⟨List.length_take_le limit _, ?_, ?_⟩
  · intro e he
    have he2 := List.mem_of_mem_take he
    have he3 := (List.mem_insertionSort recentLE).mp he2
    rcases List.mem_filterMap.mp he3 with ⟨⟨k, msgs⟩, hmem, hf⟩
    by_cases hemp : msgs.isEmpty
    · rw [if_pos hemp] at hf
      exact absurd hf (by simp)
    · rw [if_neg hemp] at hf
      have hne : msgs ≠ [] := by simpa [List.isEmpty_iff] using hemp
      have he4 : e = ⟨k, chatNameOf contacts k, jsSliceNeg 5 msgs⟩ :=
        (Option.some.injEq _ _ ▸ hf).symm
      subst he4
      exact ⟨jsSliceNeg_ne_nil hne 5, msgs, cacheGet?_eq_of_mem hk hmem,
        hne, rfl⟩
  · have hs : List.Sorted recentLE
        (List.insertionSort recentLE
          (cache.filterMap fun p =>
            if p.2.isEmpty then none
            else some ⟨p.1, chatNameOf contacts p.1, jsSliceNeg 5 p.2⟩)) :=
      List.sorted_insertionSort recentLE _
    exact List.Pairwise.sublist (List.take_sublist limit _) hs

/-- Witness for `c8_recent_amended` on a two-conversation cache. -/
theorem c8_recent_amended_witness :
    (getRecentMessages [("a@c.us", [msgT100, msgT50]), ("b@c.us", [msgT70])]
        [] 1).length ≤ 1 ∧
      (∀ e ∈ getRecentMessages [("a@c.us", [msgT100, msgT50]),
          ("b@c.us", [msgT70])] [] 1,
        e.messages ≠ [] ∧ ∃ msgs,
          cacheGet? [("a@c.us", [msgT100, msgT50]), ("b@c.us", [msgT70])]
              e.chatId = some msgs ∧
            msgs ≠ [] ∧ e.messages = jsSliceNeg 5 msgs) ∧
      (getRecentMessages [("a@c.us", [msgT100, msgT50]), ("b@c.us", [msgT70])]
          [] 1).Pairwise recentLE :=
  c8_recent_amended [("a@c.us", [msgT100, msgT50]), ("b@c.us", [msgT70])]
    [] 1 (by decide)

/-- C10: `getMessagesByPhoneNumber` has no `null` path — for a ready client
it always returns a record, and on a complete lookup miss the record's
`contactId` is the phone's digits with `@c.us` appended and its
`contactName` falls back to the phone string; by contrast
`getMessagesByContactName` returns `null` when no stored name matches. -/
theorem c10_phone_lookup_total (st : WState) (d : Driver) (phone nm : String)
    (limit limit2 now now2 : Nat)
    (h1 : st.clientAlive = true) (h2 : st.isReady = true)
    (h3 : st.contacts.find? (fun p =>
      startsWithSeq (digitsOf phone).toList p.1.toList &&
        endsWithSeq "@c.us".toList p.1.toList) = none)
    (h4 : cGet? st.contacts (formatPhoneNumber phone) = none)
    (h5 : st.contacts.isEmpty = false)
    (h6 : st.contacts.find? (fun p => nameMatches p.2 (lowerChars nm)) = none) :
    (∃ r, (getMessagesByPhoneNumber st d phone limit now).1 = .ok (some r) ∧
        r.contactId = digitsOf phone ++ "@c.us" ∧ r.contactName = phone) ∧
      (getMessagesByContactName st d nm limit2 now2).1 = .ok none := by
  constructor
  · have hmain : ∃ st2 : WState, st2.contacts = st.contacts ∧
        (getMessagesByPhoneNumber st d phone limit now).1 =
          .ok (some (msgsResultFor st2 (formatPhoneNumber phone) phone limit).1) := by
      simp only [getMessagesByPhoneNumber, h3]
      cases hf : d.fetch (formatPhoneNumber phone) limit with
      | error e =>
        rw [fetchMessages_error st d (formatPhoneNumber phone) limit now e h1 h2 hf]
        exact ⟨st, rfl, rfl⟩
      | ok raws =>
        rw [fetchMessages_ok st d (formatPhoneNumber phone) limit now raws h1 h2 hf]
        exact ⟨{ st with messages :=
            ((raws.map (toStored (formatPhoneNumber phone) now)).foldl
              (fun c m => cacheSet c (formatPhoneNumber phone)
                (insertIfAbsent (cacheGet c (formatPhoneNumber phone)) m))
              st.messages) }, rfl, rfl⟩
    rcases hmain with ⟨st2, hc, heq⟩
    refine ⟨(msgsResultFor st2 (formatPhoneNumber phone) phone limit).1,
      heq, ?_, ?_⟩
    · simp [msgsResultFor, formatPhoneNumber_eq]
    · simp [msgsResultFor, hc, h4, jsOrS]
  · rw [getMessagesByContactName, findContactByName]
    simp [h5, h6]

/-- Witness for `c10_phone_lookup_total` on a state whose single contact
matches neither the phone `123` nor the name `zzz`. -/
theorem c10_phone_lookup_total_witness :
    (∃ r, (getMessagesByPhoneNumber stPhone dEmpty "123" 100 0).1 =
        .ok (some r) ∧
        r.contactId = digitsOf "123" ++ "@c.us" ∧ r.contactName = "123") ∧
      (getMessagesByContactName stPhone dEmpty "zzz" 100 0).1 = .ok none :=
  c10_phone_lookup_total stPhone dEmpty "123" "zzz" 100 100 0 0
    rfl rfl (by decide) (by decide) rfl (by decide)

/-- C7: `resetAuth` destroys the driver session, empties both in-memory
caches and deletes both persisted artifacts before its final `initialize()`
call, which it then performs (restarting a fresh client with the caches
still empty). -/
theorem c7_resetAuth_spec (st : WState) :
    (resetAuthMid st).contacts = [] ∧ (resetAuthMid st).messages = [] ∧
      (resetAuthMid st).clientAlive = false ∧
      (resetAuthMid st).authFolderExists = false ∧
      (resetAuthMid st).contactsFileExists = false ∧
      resetAuth st = initClient (resetAuthMid st) ∧
      (resetAuth st).contacts = [] ∧ (resetAuth st).messages = [] ∧
      (resetAuth st).clientAlive = true := by
  cases h : st.clientAlive <;>
    simp [resetAuth, resetAuthMid, initClient, destroyClient, h]

/-- C5: with the client not ready, both send methods throw the typed
not-ready error without contacting the driver or changing any state, and
both tool handlers (given present arguments) reply with the typed
"not connected" error, again without contacting the driver or changing any
state. -/
theorem c5_not_ready_fail_fast (st : WState) (d : Driver)
    (recipient message name : String) (h : isClientReady st = false) :
    sendMessage st d recipient message = (.error .notReady, st, false) ∧
      sendMessageToContact st d name message = (.error .notReady, st, false) ∧
      (recipient ≠ "" → message ≠ "" →
        handleSendMessageTool st d recipient message =
          (.err "WhatsApp is not connected. Check status first.", st, false)) ∧
      (name ≠ "" → message ≠ "" →
        handleSendToContactTool st d name message =
          (.err "WhatsApp is not connected. Check status first.", st, false)) := by
  have hcond : st.clientAlive = false ∨ st.isReady = false := by
    rw [isClientReady] at h
    cases hr2 : st.isReady <;> cases hc2 : st.clientAlive <;> simp_all
  refine ⟨?_, ?_, fun hra hma => ?_, fun hna hma => ?_⟩
  · rcases hcond with hc | hc <;> simp [sendMessage, hc]
  · rcases hcond with hc | hc <;> simp [sendMessageToContact, hc]
  · simp [handleSendMessageTool, hra, hma, h]
  · simp [handleSendToContactTool, hna, hma, h]

/-- Witness for `c5_not_ready_fail_fast` at a concrete disconnected state. -/
theorem c5_not_ready_fail_fast_witness :
    sendMessage { isReady := false } dEmpty "123" "hello" =
        (.error .notReady, { isReady := false }, false) ∧
      sendMessageToContact { isReady := false } dEmpty "Bob" "hello" =
        (.error .notReady, { isReady := false }, false) ∧
      (("123" : String) ≠ "" → ("hello" : String) ≠ "" →
        handleSendMessageTool { isReady := false } dEmpty "123" "hello" =
          (.err "WhatsApp is not connected. Check status first.",
            { isReady := false }, false)) ∧
      (("Bob" : String) ≠ "" → ("hello" : String) ≠ "" →
        handleSendToContactTool { isReady := false } dEmpty "Bob" "hello" =
          (.err "WhatsApp is not connected. Check status first.",
            { isReady := false }, false)) :=
  c5_not_ready_fail_fast { isReady := false } dEmpty "123" "hello" "Bob" (by decide)
